import Mathlib

/-!
Shallow embedding of the request-validation middleware in `src/index.ts` of
the zod-express repository.

Values carried in the three request slots are drawn from an abstract type
`α`, native validation errors from `ε`, and a configured custom `sendErrors`
callback is identified by an abstract value of type `κ` (its body is
external; the observable fact is that it is invoked, and with which error
list).  A zod schema is modelled as the pair of its `safeParse` and
`safeParseAsync` operations, each a total function from an input value to a
success-or-failure result, exactly the interface the middleware consumes.

A middleware invocation `(req, res, next)` terminates in exactly one of five
observable ways, captured by `Outcome`: calling `next()` with no argument,
calling `next(errors)`, writing a response through the built-in `sendErrors`
responder, invoking a custom `sendErrors` callback, or throwing one of the
three typed errors.  Each outcome also records the final state of the
(mutated-in-place) request object.
-/

namespace ZodExpress

/-- Result of `schema.safeParse` / `schema.safeParseAsync`: either success
carrying the parsed (possibly transformed) data, or failure carrying the
native ZodError. -/
inductive ParseResult (α ε : Type) where
  | success (data : α)
  | failure (error : ε)
deriving DecidableEq, Repr

/-- A zod schema as the middleware consumes it: an opaque validator with a
synchronous and an asynchronous parse operation. -/
structure Schema (α ε : Type) where
  safeParse : α → ParseResult α ε
  safeParseAsync : α → ParseResult α ε

/-- The three request slots, as tagged in error list items
(`"Params" | "Query" | "Body"` in the source). -/
inductive SlotType where
  | Params
  | Query
  | Body
deriving DecidableEq, Repr

/-- Source: `type ErrorListItem = { type: "Query" | "Params" | "Body"; errors: ZodError<any> }`. -/
structure ErrorListItem (ε : Type) where
  type : SlotType
  errors : ε
deriving DecidableEq, Repr

/-- The mutable request object: the three validated facets. -/
structure Request (α : Type) where
  params : α
  query : α
  body : α
deriving DecidableEq, Repr

/-- Source: `RequestValidation` / `RequestProcessing` — a record of up to
three optional schemas. -/
structure RequestValidation (α ε : Type) where
  params : Option (Schema α ε) := none
  query : Option (Schema α ε) := none
  body : Option (Schema α ε) := none

/-- Source: `Options` — flags and optional custom `sendErrors` callback.
The callback itself is external code; it is identified by a value of `κ`. -/
structure Options (ε κ : Type) where
  passErrorToNext : Bool := false
  throwErrors : Bool := false
  sendErrors : Option κ := none

/-- The three typed error classes of `src/errors`, each wrapping the
native validation error (`zodError` field in the source). -/
inductive ThrownError (ε : Type) where
  | InvalidParamsError (zodError : ε)
  | InvalidQueryError (zodError : ε)
  | InvalidBodyError (zodError : ε)
deriving DecidableEq, Repr

/-- Which typed error each slot throws under `throwErrors`
(`InvalidParamsError` / `InvalidQueryError` / `InvalidBodyError` in the
source's three slot blocks). -/
def raisedError (ty : SlotType) (e : ε) : ThrownError ε :=
  match ty with
  | .Params => .InvalidParamsError e
  | .Query => .InvalidQueryError e
  | .Body => .InvalidBodyError e

/-- An HTTP response as written by the built-in responder: a status code and
a body that is a list of `{type, errors}` records. -/
structure Response (ε : Type) where
  status : Nat
  body : List (ErrorListItem ε)
deriving DecidableEq, Repr

/-- Source line 70: the built-in responder
`res.status(400).send(errors.map((error) => ({ type: error.type, errors: error.errors })))`. -/
def sendErrors (errors : List (ErrorListItem ε)) : Response ε :=
  { status := 400, body := errors.map (fun e => { type := e.type, errors := e.errors }) }

/-- Observable result of one middleware invocation.  Every constructor
carries the final state of the request object (mutated in place by the
source). -/
inductive Outcome (α ε κ : Type) where
  | next (req : Request α)
  | nextWithErrors (req : Request α) (errors : List (ErrorListItem ε))
  | respond (req : Request α) (response : Response ε)
  | customSend (req : Request α) (callback : κ) (errors : List (ErrorListItem ε))
  | thrown (req : Request α) (error : ThrownError ε)
deriving DecidableEq, Repr

/-- Final state of the request object, whatever the outcome. -/
def Outcome.finalReq : Outcome α ε κ → Request α
  | .next r => r
  | .nextWithErrors r _ => r
  | .respond r _ => r
  | .customSend r _ _ => r
  | .thrown r _ => r

/-- The error list the middleware reports outward: the argument of
`next(errors)`, the response body of the built-in responder, or the list
handed to a custom callback.  Empty for a clean `next()` and for a throw. -/
def Outcome.reportedErrors : Outcome α ε κ → List (ErrorListItem ε)
  | .next _ => []
  | .nextWithErrors _ es => es
  | .respond _ resp => resp.body
  | .customSend _ _ es => es
  | .thrown _ _ => []

/-- One slot block of `processRequest` (source lines 181-190 and its two
clones): parse the slot's field; on success overwrite the field; on failure
either throw (when `throwErrors`) or append to the error accumulator.
`parse` selects `safeParse` (sync entry points) or `safeParseAsync` (async). -/
def processSlot (parse : Schema α ε → α → ParseResult α ε)
    (schema? : Option (Schema α ε)) (throwErrors : Bool) (ty : SlotType)
    (get : Request α → α) (set : Request α → α → Request α)
    (req : Request α) (errors : List (ErrorListItem ε)) :
    Except (Request α × ThrownError ε) (Request α × List (ErrorListItem ε)) :=
  match schema? with
  | none => .ok (req, errors)
  | some schema =>
    match parse schema (get req) with
    | .success data => .ok (set req data, errors)
    | .failure error =>
      if throwErrors then .error (req, raisedError ty error)
      else .ok (req, errors ++ [⟨ty, error⟩])

/-- Tail of `processRequest` / `processRequestAsync` (source lines 211-221):
forward to next on `passErrorToNext`; otherwise, note that BOTH branches of
`if (options.sendErrors)` call the module-level `sendErrors`, so the custom
callback is never invoked here. -/
def finishProcess (options : Options ε κ) (req : Request α)
    (errors : List (ErrorListItem ε)) : Outcome α ε κ :=
  if errors.length > 0 then
    if options.passErrorToNext then .nextWithErrors req errors
    else
      match options.sendErrors with
      | some _ => .respond req (sendErrors errors)
      | none => .respond req (sendErrors errors)
  else .next req

/-- Source lines 175-222: `processRequest`. -/
def processRequest (schemas : RequestValidation α ε) (options : Options ε κ)
    (req : Request α) : Outcome α ε κ :=
  match processSlot Schema.safeParse schemas.params options.throwErrors .Params
      (fun r => r.params) (fun r v => { r with params := v }) req [] with
  | .error (r, err) => .thrown r err
  | .ok (r1, errors1) =>
    match processSlot Schema.safeParse schemas.query options.throwErrors .Query
        (fun r => r.query) (fun r v => { r with query := v }) r1 errors1 with
    | .error (r, err) => .thrown r err
    | .ok (r2, errors2) =>
      match processSlot Schema.safeParse schemas.body options.throwErrors .Body
          (fun r => r.body) (fun r v => { r with body := v }) r2 errors2 with
      | .error (r, err) => .thrown r err
      | .ok (r3, errors3) => finishProcess options r3 errors3

/-- Source lines 232-279: `processRequestAsync` — the same three slot blocks
and tail, with each parse awaited (`safeParseAsync`). -/
def processRequestAsync (schemas : RequestValidation α ε) (options : Options ε κ)
    (req : Request α) : Outcome α ε κ :=
  match processSlot Schema.safeParseAsync schemas.params options.throwErrors .Params
      (fun r => r.params) (fun r v => { r with params := v }) req [] with
  | .error (r, err) => .thrown r err
  | .ok (r1, errors1) =>
    match processSlot Schema.safeParseAsync schemas.query options.throwErrors .Query
        (fun r => r.query) (fun r v => { r with query := v }) r1 errors1 with
    | .error (r, err) => .thrown r err
    | .ok (r2, errors2) =>
      match processSlot Schema.safeParseAsync schemas.body options.throwErrors .Body
          (fun r => r.body) (fun r v => { r with body := v }) r2 errors2 with
      | .error (r, err) => .thrown r err
      | .ok (r3, errors3) => finishProcess options r3 errors3

/-- One slot block of `validateRequest` (source lines 332-341 and its two
clones): parse the slot's field; success leaves the request untouched;
failure throws (when `throwErrors`) or appends to the accumulator. -/
def validateSlot (parse : Schema α ε → α → ParseResult α ε)
    (schema? : Option (Schema α ε)) (throwErrors : Bool) (ty : SlotType)
    (get : Request α → α)
    (req : Request α) (errors : List (ErrorListItem ε)) :
    Except (Request α × ThrownError ε) (List (ErrorListItem ε)) :=
  match schema? with
  | none => .ok errors
  | some schema =>
    match parse schema (get req) with
    | .success _ => .ok errors
    | .failure error =>
      if throwErrors then .error (req, raisedError ty error)
      else .ok (errors ++ [⟨ty, error⟩])

/-- Tail of `validateRequest` / `validateRequestAsync` (source lines
362-371): here `options.sendErrors`, when configured, really is invoked. -/
def finishValidate (options : Options ε κ) (req : Request α)
    (errors : List (ErrorListItem ε)) : Outcome α ε κ :=
  if errors.length > 0 then
    if options.passErrorToNext then .nextWithErrors req errors
    else
      match options.sendErrors with
      | some cb => .customSend req cb errors
      | none => .respond req (sendErrors errors)
  else .next req

/-- Source lines 325-372: `validateRequest`. -/
def validateRequest (schemas : RequestValidation α ε) (options : Options ε κ)
    (req : Request α) : Outcome α ε κ :=
  match validateSlot Schema.safeParse schemas.params options.throwErrors .Params
      (fun r => r.params) req [] with
  | .error (r, err) => .thrown r err
  | .ok errors1 =>
    match validateSlot Schema.safeParse schemas.query options.throwErrors .Query
        (fun r => r.query) req errors1 with
    | .error (r, err) => .thrown r err
    | .ok errors2 =>
      match validateSlot Schema.safeParse schemas.body options.throwErrors .Body
          (fun r => r.body) req errors2 with
      | .error (r, err) => .thrown r err
      | .ok errors3 => finishValidate options req errors3

/-- Source lines 374-421: `validateRequestAsync` — same blocks, awaited. -/
def validateRequestAsync (schemas : RequestValidation α ε) (options : Options ε κ)
    (req : Request α) : Outcome α ε κ :=
  match validateSlot Schema.safeParseAsync schemas.params options.throwErrors .Params
      (fun r => r.params) req [] with
  | .error (r, err) => .thrown r err
  | .ok errors1 =>
    match validateSlot Schema.safeParseAsync schemas.query options.throwErrors .Query
        (fun r => r.query) req errors1 with
    | .error (r, err) => .thrown r err
    | .ok errors2 =>
      match validateSlot Schema.safeParseAsync schemas.body options.throwErrors .Body
          (fun r => r.body) req errors2 with
      | .error (r, err) => .thrown r err
      | .ok errors3 => finishValidate options req errors3

/-- Source lines 85-90: `processRequestBody` delegates to `processRequest`
with only the body slot populated. -/
def processRequestBody (schema : Schema α ε) (options : Options ε κ) :
    Request α → Outcome α ε κ :=
  processRequest { body := some schema } options

/-- Source lines 115-120: `processRequestParams`. -/
def processRequestParams (schema : Schema α ε) (options : Options ε κ) :
    Request α → Outcome α ε κ :=
  processRequest { params := some schema } options

/-- Source lines 145-150: `processRequestQuery`. -/
def processRequestQuery (schema : Schema α ε) (options : Options ε κ) :
    Request α → Outcome α ε κ :=
  processRequest { query := some schema } options

/-- Source lines 100-105: `processRequestBodyAsync`. -/
def processRequestBodyAsync (schema : Schema α ε) (options : Options ε κ) :
    Request α → Outcome α ε κ :=
  processRequestAsync { body := some schema } options

/-- Source lines 130-135: `processRequestParamsAsync`. -/
def processRequestParamsAsync (schema : Schema α ε) (options : Options ε κ) :
    Request α → Outcome α ε κ :=
  processRequestAsync { params := some schema } options

/-- Source lines 160-165: `processRequestQueryAsync`. -/
def processRequestQueryAsync (schema : Schema α ε) (options : Options ε κ) :
    Request α → Outcome α ε κ :=
  processRequestAsync { query := some schema } options

/-- Source lines 281-286: `validateRequestBody` delegates to
`validateRequest` with only the body slot populated. -/
def validateRequestBody (schema : Schema α ε) (options : Options ε κ) :
    Request α → Outcome α ε κ :=
  validateRequest { body := some schema } options

/-- Source lines 295-300: `validateRequestParams`. -/
def validateRequestParams (schema : Schema α ε) (options : Options ε κ) :
    Request α → Outcome α ε κ :=
  validateRequest { params := some schema } options

/-- Source lines 309-314: `validateRequestQuery`. -/
def validateRequestQuery (schema : Schema α ε) (options : Options ε κ) :
    Request α → Outcome α ε κ :=
  validateRequest { query := some schema } options

/-- Source lines 429-433: the `ValidateRequest` factory pre-binding
options. -/
def ValidateRequestFactory (options : Options ε κ) :
    RequestValidation α ε → Request α → Outcome α ε κ :=
  fun schemas => validateRequest schemas options

/-! Observables used to state the claims: the list of failed-slot error
items a request produces (in params, query, body order, containing exactly
the configured slots whose parse failed), and the per-slot parsed value that
the processing family writes back on success. -/

/-- Error-list contribution of one slot: empty when the slot has no schema
or its parse succeeds, a single tagged item when it fails. -/
def slotFailureListWith (parse : Schema α ε → α → ParseResult α ε)
    (ty : SlotType) (schema? : Option (Schema α ε)) (input : α) :
    List (ErrorListItem ε) :=
  match schema? with
  | none => []
  | some s =>
    match parse s input with
    | .success _ => []
    | .failure e => [⟨ty, e⟩]

/-- The failed-slot list of a request: params, then query, then body. -/
def failedSlotsWith (parse : Schema α ε → α → ParseResult α ε)
    (schemas : RequestValidation α ε) (req : Request α) :
    List (ErrorListItem ε) :=
  slotFailureListWith parse .Params schemas.params req.params
    ++ slotFailureListWith parse .Query schemas.query req.query
    ++ slotFailureListWith parse .Body schemas.body req.body

/-- Value a slot's request field holds after the processing family ran:
the parsed data on success, the original raw value otherwise. -/
def processedFieldWith (parse : Schema α ε → α → ParseResult α ε)
    (schema? : Option (Schema α ε)) (input : α) : α :=
  match schema? with
  | none => input
  | some s =>
    match parse s input with
    | .success d => d
    | .failure _ => input

/-- Request state after the processing family ran all three slots. -/
def processedRequestWith (parse : Schema α ε → α → ParseResult α ε)
    (schemas : RequestValidation α ε) (req : Request α) : Request α :=
  { params := processedFieldWith parse schemas.params req.params,
    query := processedFieldWith parse schemas.query req.query,
    body := processedFieldWith parse schemas.body req.body }

/-- Synchronous (`safeParse`) failed-slot contribution of one slot. -/
def slotFailureList (ty : SlotType) (schema? : Option (Schema α ε)) (input : α) :
    List (ErrorListItem ε) :=
  slotFailureListWith Schema.safeParse ty schema? input

/-- Synchronous failed-slot list. -/
def failedSlots (schemas : RequestValidation α ε) (req : Request α) :
    List (ErrorListItem ε) :=
  failedSlotsWith Schema.safeParse schemas req

/-- Synchronous processed value of one slot. -/
def processedField (schema? : Option (Schema α ε)) (input : α) : α :=
  processedFieldWith Schema.safeParse schema? input

/-- Synchronous processed request. -/
def processedRequest (schemas : RequestValidation α ε) (req : Request α) :
    Request α :=
  processedRequestWith Schema.safeParse schemas req

/-! Concrete instances used to witness the hypotheses of the claim
theorems: values and errors are natural numbers, and a custom callback is
identified by a natural number. -/

/-- Demo schema that succeeds and transforms its input (adds one), in both
sync and async form. -/
def demoOkSchema : Schema Nat Nat :=
  { safeParse := fun x => .success (x + 1),
    safeParseAsync := fun x => .success (x + 1) }

/-- Demo schema that always fails with native error 7, in both forms. -/
def demoFailSchema : Schema Nat Nat :=
  { safeParse := fun _ => .failure 7,
    safeParseAsync := fun _ => .failure 7 }

/-- Demo request with raw slot values 1, 2, 3. -/
def demoReq : Request Nat := { params := 1, query := 2, body := 3 }

/-- Demo options with every flag unset and no custom callback. -/
def demoOptions : Options Nat Nat :=
  { passErrorToNext := false, throwErrors := false, sendErrors := none }

/-- Demo options configuring a custom sendErrors callback (id 99), with both
flags false. -/
def demoCustomOptions : Options Nat Nat :=
  { passErrorToNext := false, throwErrors := false, sendErrors := some 99 }

/-- Demo options with passErrorToNext set. -/
def demoPassOptions : Options Nat Nat :=
  { passErrorToNext := true, throwErrors := false, sendErrors := none }

/-- Demo options with throwErrors set. -/
def demoThrowOptions : Options Nat Nat :=
  { passErrorToNext := false, throwErrors := true, sendErrors := none }

/-! Master characterization lemmas shared by the claim proofs. -/

/-- The built-in responder's body is the error list itself (the map in the
source rebuilds each `{type, errors}` record unchanged). -/
theorem sendErrors_eq (errors : List (ErrorListItem ε)) :
    sendErrors errors = ⟨400, errors⟩ := by
  unfold sendErrors
  congr 1
  induction errors with
  | nil => rfl
  | cons e es ih => simp [ih]

/-- A processing slot block never throws when `throwErrors` is false; it
returns the field-updated request and appends the slot's failure items. -/
theorem processSlot_noThrow (parse : Schema α ε → α → ParseResult α ε)
    (schema? : Option (Schema α ε)) (ty : SlotType)
    (get : Request α → α) (set : Request α → α → Request α)
    (req : Request α) (errors : List (ErrorListItem ε))
    (hset : set req (get req) = req) :
    processSlot parse schema? false ty get set req errors
      = .ok (set req (processedFieldWith parse schema? (get req)),
             errors ++ slotFailureListWith parse ty schema? (get req)) := by
  cases schema? with
  | none => simp [processSlot, processedFieldWith, slotFailureListWith, hset]
  | some s =>
    cases hp : parse s (get req) with
    | success d => simp [processSlot, processedFieldWith, slotFailureListWith, hp]
    | failure e => simp [processSlot, processedFieldWith, slotFailureListWith, hp, hset]

/-- A validating slot block never throws when `throwErrors` is false; it
leaves the request alone and appends the slot's failure items. -/
theorem validateSlot_noThrow (parse : Schema α ε → α → ParseResult α ε)
    (schema? : Option (Schema α ε)) (ty : SlotType) (get : Request α → α)
    (req : Request α) (errors : List (ErrorListItem ε)) :
    validateSlot parse schema? false ty get req errors
      = .ok (errors ++ slotFailureListWith parse ty schema? (get req)) := by
  cases schema? with
  | none => simp [validateSlot, slotFailureListWith]
  | some s =>
    cases hp : parse s (get req) with
    | success d => simp [validateSlot, slotFailureListWith, hp]
    | failure e => simp [validateSlot, slotFailureListWith, hp]

/-- With `throwErrors` false, `processRequest` is the tail dispatcher applied
to the field-updated request and the full failed-slot list. -/
theorem processRequest_noThrow (schemas : RequestValidation α ε)
    (options : Options ε κ) (req : Request α)
    (h : options.throwErrors = false) :
    processRequest schemas options req
      = finishProcess options (processedRequest schemas req)
          (failedSlots schemas req) := by
  unfold processRequest
  rw [h]
  rw [processSlot_noThrow Schema.safeParse schemas.params .Params _ _ req [] rfl]
  dsimp only
  rw [processSlot_noThrow Schema.safeParse schemas.query .Query _ _ _ _ rfl]
  dsimp only
  rw [processSlot_noThrow Schema.safeParse schemas.body .Body _ _ _ _ rfl]
  dsimp only
  simp [processedRequest, processedRequestWith, failedSlots, failedSlotsWith]

/-- With `throwErrors` false, `processRequestAsync` is the tail dispatcher on
the async-parsed request and failed-slot list. -/
theorem processRequestAsync_noThrow (schemas : RequestValidation α ε)
    (options : Options ε κ) (req : Request α)
    (h : options.throwErrors = false) :
    processRequestAsync schemas options req
      = finishProcess options
          (processedRequestWith Schema.safeParseAsync schemas req)
          (failedSlotsWith Schema.safeParseAsync schemas req) := by
  unfold processRequestAsync
  rw [h]
  rw [processSlot_noThrow Schema.safeParseAsync schemas.params .Params _ _ req [] rfl]
  dsimp only
  rw [processSlot_noThrow Schema.safeParseAsync schemas.query .Query _ _ _ _ rfl]
  dsimp only
  rw [processSlot_noThrow Schema.safeParseAsync schemas.body .Body _ _ _ _ rfl]
  dsimp only
  simp [processedRequestWith, failedSlotsWith]

/-- With `throwErrors` false, `validateRequest` is the tail dispatcher on the
untouched request and the full failed-slot list. -/
theorem validateRequest_noThrow (schemas : RequestValidation α ε)
    (options : Options ε κ) (req : Request α)
    (h : options.throwErrors = false) :
    validateRequest schemas options req
      = finishValidate options req (failedSlots schemas req) := by
  unfold validateRequest
  rw [h]
  rw [validateSlot_noThrow]
  dsimp only
  rw [validateSlot_noThrow]
  dsimp only
  rw [validateSlot_noThrow]
  dsimp only
  simp [failedSlots, failedSlotsWith]

/-- With `throwErrors` false, `validateRequestAsync` is the tail dispatcher
on the untouched request and the async failed-slot list. -/
theorem validateRequestAsync_noThrow (schemas : RequestValidation α ε)
    (options : Options ε κ) (req : Request α)
    (h : options.throwErrors = false) :
    validateRequestAsync schemas options req
      = finishValidate options req
          (failedSlotsWith Schema.safeParseAsync schemas req) := by
  unfold validateRequestAsync
  rw [h]
  rw [validateSlot_noThrow]
  dsimp only
  rw [validateSlot_noThrow]
  dsimp only
  rw [validateSlot_noThrow]
  dsimp only
  simp [failedSlotsWith]

/-- A processing slot block whose slot does not fail behaves the same for
every `throwErrors` flag: it updates the field and adds no error item. -/
theorem processSlot_ofPasses (parse : Schema α ε → α → ParseResult α ε)
    (schema? : Option (Schema α ε)) (te : Bool) (ty : SlotType)
    (get : Request α → α) (set : Request α → α → Request α)
    (req : Request α) (errors : List (ErrorListItem ε))
    (h : slotFailureListWith parse ty schema? (get req) = [])
    (hset : set req (get req) = req) :
    processSlot parse schema? te ty get set req errors
      = .ok (set req (processedFieldWith parse schema? (get req)), errors) := by
  cases schema? with
  | none => simp [processSlot, processedFieldWith, hset]
  | some s =>
    cases hp : parse s (get req) with
    | success d => simp [processSlot, processedFieldWith, hp]
    | failure e => simp [slotFailureListWith, hp] at h

/-- A validating slot block whose slot does not fail leaves the accumulator
alone for every `throwErrors` flag. -/
theorem validateSlot_ofPasses (parse : Schema α ε → α → ParseResult α ε)
    (schema? : Option (Schema α ε)) (te : Bool) (ty : SlotType)
    (get : Request α → α)
    (req : Request α) (errors : List (ErrorListItem ε))
    (h : slotFailureListWith parse ty schema? (get req) = []) :
    validateSlot parse schema? te ty get req errors = .ok errors := by
  cases schema? with
  | none => simp [validateSlot]
  | some s =>
    cases hp : parse s (get req) with
    | success d => simp [validateSlot, hp]
    | failure e => simp [slotFailureListWith, hp] at h

/-- A processing slot block with `throwErrors` set throws the slot's typed
error as soon as the parse fails. -/
theorem processSlot_throw (parse : Schema α ε → α → ParseResult α ε)
    (s : Schema α ε) (ty : SlotType)
    (get : Request α → α) (set : Request α → α → Request α)
    (req : Request α) (errors : List (ErrorListItem ε)) (e : ε)
    (hp : parse s (get req) = .failure e) :
    processSlot parse (some s) true ty get set req errors
      = .error (req, raisedError ty e) := by
  simp [processSlot, hp]

/-- A validating slot block with `throwErrors` set throws the slot's typed
error as soon as the parse fails. -/
theorem validateSlot_throw (parse : Schema α ε → α → ParseResult α ε)
    (s : Schema α ε) (ty : SlotType) (get : Request α → α)
    (req : Request α) (errors : List (ErrorListItem ε)) (e : ε)
    (hp : parse s (get req) = .failure e) :
    validateSlot parse (some s) true ty get req errors
      = .error (req, raisedError ty e) := by
  simp [validateSlot, hp]

/-- An empty accumulator makes the processing tail call `next()`. -/
theorem finishProcess_nil (options : Options ε κ) (req : Request α) :
    finishProcess options req [] = .next req := by
  simp [finishProcess]

/-- An empty accumulator makes the validating tail call `next()`. -/
theorem finishValidate_nil (options : Options ε κ) (req : Request α) :
    finishValidate options req [] = .next req := by
  simp [finishValidate]

/-- The processing tail always reports exactly the accumulated errors. -/
theorem finishProcess_reportedErrors (options : Options ε κ) (req : Request α)
    (errors : List (ErrorListItem ε)) :
    (finishProcess options req errors).reportedErrors = errors := by
  rcases Nat.eq_zero_or_pos errors.length with h0 | hpos
  · simp [List.length_eq_zero.mp h0, finishProcess, Outcome.reportedErrors]
  · cases hp : options.passErrorToNext <;> cases hs : options.sendErrors <;>
      simp [finishProcess, hpos, hp, hs, Outcome.reportedErrors, sendErrors_eq]

/-- The validating tail always reports exactly the accumulated errors. -/
theorem finishValidate_reportedErrors (options : Options ε κ) (req : Request α)
    (errors : List (ErrorListItem ε)) :
    (finishValidate options req errors).reportedErrors = errors := by
  rcases Nat.eq_zero_or_pos errors.length with h0 | hpos
  · simp [List.length_eq_zero.mp h0, finishValidate, Outcome.reportedErrors]
  · cases hp : options.passErrorToNext <;> cases hs : options.sendErrors <;>
      simp [finishValidate, hpos, hp, hs, Outcome.reportedErrors, sendErrors_eq]

/-- The processing tail returns the request it was given, unchanged. -/
theorem finishProcess_finalReq (options : Options ε κ) (req : Request α)
    (errors : List (ErrorListItem ε)) :
    (finishProcess options req errors).finalReq = req := by
  rcases Nat.eq_zero_or_pos errors.length with h0 | hpos
  · simp [finishProcess, List.length_eq_zero.mp h0, Outcome.finalReq]
  · cases hp : options.passErrorToNext <;> cases hs : options.sendErrors <;>
      simp [finishProcess, hpos, hp, hs, Outcome.finalReq]

/-- The processing tail never throws. -/
theorem finishProcess_ne_thrown (options : Options ε κ) (req : Request α)
    (errors : List (ErrorListItem ε)) (r : Request α) (te : ThrownError ε) :
    finishProcess options req errors ≠ .thrown r te := by
  rcases Nat.eq_zero_or_pos errors.length with h0 | hpos
  · simp [finishProcess, List.length_eq_zero.mp h0]
  · cases hp : options.passErrorToNext <;> cases hs : options.sendErrors <;>
      simp [finishProcess, hpos, hp, hs]

/-- The validating tail never throws. -/
theorem finishValidate_ne_thrown (options : Options ε κ) (req : Request α)
    (errors : List (ErrorListItem ε)) (r : Request α) (te : ThrownError ε) :
    finishValidate options req errors ≠ .thrown r te := by
  rcases Nat.eq_zero_or_pos errors.length with h0 | hpos
  · simp [finishValidate, List.length_eq_zero.mp h0]
  · cases hp : options.passErrorToNext <;> cases hs : options.sendErrors <;>
      simp [finishValidate, hpos, hp, hs]

/-- A processing slot block is insensitive to the sync/async parse choice
when the schema's two parse operations agree. -/
theorem processSlot_congr (schema? : Option (Schema α ε))
    (h : ∀ s, schema? = some s → ∀ x, s.safeParseAsync x = s.safeParse x)
    (te : Bool) (ty : SlotType)
    (get : Request α → α) (set : Request α → α → Request α)
    (req : Request α) (errors : List (ErrorListItem ε)) :
    processSlot Schema.safeParseAsync schema? te ty get set req errors
      = processSlot Schema.safeParse schema? te ty get set req errors := by
  cases schema? with
  | none => rfl
  | some s => simp [processSlot, h s rfl]

/-- A validating slot block is insensitive to the sync/async parse choice
when the schema's two parse operations agree. -/
theorem validateSlot_congr (schema? : Option (Schema α ε))
    (h : ∀ s, schema? = some s → ∀ x, s.safeParseAsync x = s.safeParse x)
    (te : Bool) (ty : SlotType) (get : Request α → α)
    (req : Request α) (errors : List (ErrorListItem ε)) :
    validateSlot Schema.safeParseAsync schema? te ty get req errors
      = validateSlot Schema.safeParse schema? te ty get req errors := by
  cases schema? with
  | none => rfl
  | some s => simp [validateSlot, h s rfl]

/-- When every configured slot passes, `processRequest` calls `next()` on
the field-updated request, for every options value (the `throwErrors`
branches are never reached). -/
theorem processRequest_allPass (schemas : RequestValidation α ε)
    (options : Options ε κ) (req : Request α)
    (hok : failedSlots schemas req = []) :
    processRequest schemas options req = .next (processedRequest schemas req) := by
  rw [failedSlots, failedSlotsWith] at hok
  rw [List.append_eq_nil, List.append_eq_nil] at hok
  obtain ⟨⟨hp, hq⟩, hb⟩ := hok
  unfold processRequest processSlot
  simp only [slotFailureListWith] at hp hq hb
  split at hp <;> split at hq <;> split at hb <;>
    (try split at hp) <;> (try split at hq) <;> (try split at hb) <;>
    simp_all [processedRequest, processedRequestWith, processedFieldWith,
      finishProcess_nil]

/-- When every configured slot passes, `validateRequest` calls `next()` on
the untouched request, for every options value. -/
theorem validateRequest_allPass (schemas : RequestValidation α ε)
    (options : Options ε κ) (req : Request α)
    (hok : failedSlots schemas req = []) :
    validateRequest schemas options req = .next req := by
  rw [failedSlots, failedSlotsWith] at hok
  rw [List.append_eq_nil, List.append_eq_nil] at hok
  obtain ⟨⟨hp, hq⟩, hb⟩ := hok
  unfold validateRequest validateSlot
  simp only [slotFailureListWith] at hp hq hb
  split at hp <;> split at hq <;> split at hb <;>
    (try split at hp) <;> (try split at hq) <;> (try split at hb) <;>
    simp_all [finishValidate_nil]

/-- C9: with no slot configured, the middleware of every combined entry
point invokes the continuation exactly once with no argument, writes no
response, raises no error, and leaves every field of the request unchanged,
for every options value. -/
theorem C9_empty_schema_set (α ε κ : Type) :
    ∀ (options : Options ε κ) (req : Request α),
      processRequest ⟨none, none, none⟩ options req = .next req ∧
      processRequestAsync ⟨none, none, none⟩ options req = .next req ∧
      validateRequest ⟨none, none, none⟩ options req = .next req ∧
      validateRequestAsync ⟨none, none, none⟩ options req = .next req := by
  intro options req
  refine ⟨?_, ?_, ?_, ?_⟩ <;>
    simp [processRequest, processRequestAsync, validateRequest,
      validateRequestAsync, processSlot, validateSlot, finishProcess,
      finishValidate]

/-- C8: each single-purpose entry point equals the corresponding combined
entry point applied to a schema set containing only that slot's schema, for
every schema, options, and request. -/
theorem C8_single_purpose_delegation (α ε κ : Type) :
    ∀ (s : Schema α ε) (options : Options ε κ) (req : Request α),
      processRequestBody s options req
          = processRequest ⟨none, none, some s⟩ options req ∧
      processRequestParams s options req
          = processRequest ⟨some s, none, none⟩ options req ∧
      processRequestQuery s options req
          = processRequest ⟨none, some s, none⟩ options req ∧
      validateRequestBody s options req
          = validateRequest ⟨none, none, some s⟩ options req ∧
      validateRequestParams s options req
          = validateRequest ⟨some s, none, none⟩ options req ∧
      validateRequestQuery s options req
          = validateRequest ⟨none, some s, none⟩ options req := by
  intro s options req
  exact ⟨rfl, rfl, rfl, rfl, rfl, rfl⟩

/-- C7: when each configured schema's asynchronous parse agrees pointwise
with its synchronous parse, the async combined entry points produce exactly
the same outcome (request mutations, response, continuation call, raised
error) as their synchronous counterparts. -/
theorem C7_async_matches_sync (schemas : RequestValidation α ε)
    (options : Options ε κ) (req : Request α)
    (hp : ∀ s, schemas.params = some s → ∀ x, s.safeParseAsync x = s.safeParse x)
    (hq : ∀ s, schemas.query = some s → ∀ x, s.safeParseAsync x = s.safeParse x)
    (hb : ∀ s, schemas.body = some s → ∀ x, s.safeParseAsync x = s.safeParse x) :
    processRequestAsync schemas options req = processRequest schemas options req ∧
    validateRequestAsync schemas options req = validateRequest schemas options req := by
  constructor
  · unfold processRequestAsync processRequest
    simp only [processSlot_congr schemas.params hp,
      processSlot_congr schemas.query hq, processSlot_congr schemas.body hb]
  · unfold validateRequestAsync validateRequest
    simp only [validateSlot_congr schemas.params hp,
      validateSlot_congr schemas.query hq, validateSlot_congr schemas.body hb]

/-- Witness for C7 at a concrete schema set whose async parses agree with
the sync ones. -/
theorem C7_witness :
    processRequestAsync ⟨some demoOkSchema, none, some demoFailSchema⟩
        demoOptions demoReq
      = processRequest ⟨some demoOkSchema, none, some demoFailSchema⟩
          demoOptions demoReq ∧
    validateRequestAsync ⟨some demoOkSchema, none, some demoFailSchema⟩
        demoOptions demoReq
      = validateRequest ⟨some demoOkSchema, none, some demoFailSchema⟩
          demoOptions demoReq :=
  C7_async_matches_sync _ _ _
    (fun s hs _ => by cases hs; rfl)
    (fun s hs => nomatch hs)
    (fun s hs _ => by cases hs; rfl)

/-- C2 counterexample: the claim asserts that the middleware of ANY entry
point, validateRequest included, rewrites a successfully parsed slot's field
to the schema's transformed output.  At a concrete request whose body 3 is
parsed by a schema transforming it to 4, validateRequest calls `next()` but
leaves the body field at the raw value 3, not 4. -/
theorem C2_counterexample :
    demoOkSchema.safeParse demoReq.body = .success 4 ∧
    validateRequest ⟨none, none, some demoOkSchema⟩ demoOptions demoReq
        = .next demoReq ∧
    (validateRequest ⟨none, none, some demoOkSchema⟩ demoOptions
        demoReq).finalReq.body = 3 ∧
    ¬ (validateRequest ⟨none, none, some demoOkSchema⟩ demoOptions
        demoReq).finalReq.body = 4 := by
  refine ⟨rfl, ?_, ?_, ?_⟩ <;> decide

/-- C2 amended: when every configured slot's schema succeeds, the
continuation is invoked with no error argument and no response is written;
processRequest additionally rewrites each successfully parsed slot's field
to the schema's transformed output, while validateRequest leaves the request
unchanged (it validates without writing parsed values back). -/
theorem C2_amended_success_path (schemas : RequestValidation α ε)
    (options : Options ε κ) (req : Request α)
    (hok : failedSlots schemas req = []) :
    processRequest schemas options req = .next (processedRequest schemas req) ∧
    (∀ s d, schemas.params = some s → s.safeParse req.params = .success d →
        (processedRequest schemas req).params = d) ∧
    (∀ s d, schemas.query = some s → s.safeParse req.query = .success d →
        (processedRequest schemas req).query = d) ∧
    (∀ s d, schemas.body = some s → s.safeParse req.body = .success d →
        (processedRequest schemas req).body = d) ∧
    validateRequest schemas options req = .next req := by
  refine ⟨processRequest_allPass schemas options req hok, ?_, ?_, ?_,
    validateRequest_allPass schemas options req hok⟩ <;>
    (intro s d hs hd
     simp [processedRequest, processedRequestWith, processedFieldWith, hs, hd])

/-- Witness for the amended C2 at a concrete all-success request. -/
theorem C2_witness :
    processRequest ⟨some demoOkSchema, none, some demoOkSchema⟩ demoOptions
        demoReq
      = .next (processedRequest ⟨some demoOkSchema, none, some demoOkSchema⟩
          demoReq) ∧
    validateRequest ⟨some demoOkSchema, none, some demoOkSchema⟩ demoOptions
        demoReq
      = .next demoReq :=
  ⟨(C2_amended_success_path _ demoOptions demoReq (by decide)).1,
   (C2_amended_success_path _ demoOptions demoReq (by decide)).2.2.2.2⟩

/-- C4: when at least one configured slot fails and `throwErrors`,
`passErrorToNext`, and a custom `sendErrors` are all unset, both combined
sync entry points send a response with status 400 whose body contains
exactly one tagged entry per failed slot, in Params, Query, Body order,
each carrying the slot's native error; passed or unconfigured slots never
appear. -/
theorem C4_default_400_response (schemas : RequestValidation α ε)
    (options : Options ε κ) (req : Request α)
    (hthrow : options.throwErrors = false)
    (hpass : options.passErrorToNext = false)
    (hsend : options.sendErrors = none)
    (hfail : failedSlots schemas req ≠ []) :
    processRequest schemas options req
        = .respond (processedRequest schemas req)
            ⟨400, failedSlots schemas req⟩ ∧
    validateRequest schemas options req
        = .respond req ⟨400, failedSlots schemas req⟩ := by
  have hlen : 0 < (failedSlots schemas req).length := List.length_pos.mpr hfail
  constructor
  · rw [processRequest_noThrow schemas options req hthrow]
    simp [finishProcess, hlen, hpass, hsend, sendErrors_eq]
  · rw [validateRequest_noThrow schemas options req hthrow]
    simp [finishValidate, hlen, hpass, hsend, sendErrors_eq]

/-- Witness for C4: body fails, params passes, query unconfigured. -/
theorem C4_witness :
    processRequest ⟨some demoOkSchema, none, some demoFailSchema⟩ demoOptions
        demoReq
      = .respond
          (processedRequest ⟨some demoOkSchema, none, some demoFailSchema⟩
            demoReq)
          ⟨400, failedSlots ⟨some demoOkSchema, none, some demoFailSchema⟩
            demoReq⟩ ∧
    validateRequest ⟨some demoOkSchema, none, some demoFailSchema⟩ demoOptions
        demoReq
      = .respond demoReq
          ⟨400, failedSlots ⟨some demoOkSchema, none, some demoFailSchema⟩
            demoReq⟩ :=
  C4_default_400_response _ demoOptions demoReq rfl rfl rfl (by decide)

/-- C5: when `passErrorToNext` is set, `throwErrors` is unset, and at least
one configured slot fails, both combined sync entry points invoke the
continuation with exactly the failed-slot list (Params, Query, Body order)
as its single argument, and write no response. -/
theorem C5_pass_error_to_next (schemas : RequestValidation α ε)
    (options : Options ε κ) (req : Request α)
    (hthrow : options.throwErrors = false)
    (hpass : options.passErrorToNext = true)
    (hfail : failedSlots schemas req ≠ []) :
    processRequest schemas options req
        = .nextWithErrors (processedRequest schemas req)
            (failedSlots schemas req) ∧
    validateRequest schemas options req
        = .nextWithErrors req (failedSlots schemas req) := by
  have hlen : 0 < (failedSlots schemas req).length := List.length_pos.mpr hfail
  constructor
  · rw [processRequest_noThrow schemas options req hthrow]
    simp [finishProcess, hlen, hpass]
  · rw [validateRequest_noThrow schemas options req hthrow]
    simp [finishValidate, hlen, hpass]

/-- Witness for C5: params and body both fail under `passErrorToNext`. -/
theorem C5_witness :
    processRequest ⟨some demoFailSchema, none, some demoFailSchema⟩
        demoPassOptions demoReq
      = .nextWithErrors
          (processedRequest ⟨some demoFailSchema, none, some demoFailSchema⟩
            demoReq)
          (failedSlots ⟨some demoFailSchema, none, some demoFailSchema⟩
            demoReq) ∧
    validateRequest ⟨some demoFailSchema, none, some demoFailSchema⟩
        demoPassOptions demoReq
      = .nextWithErrors demoReq
          (failedSlots ⟨some demoFailSchema, none, some demoFailSchema⟩
            demoReq) :=
  C5_pass_error_to_next _ demoPassOptions demoReq rfl rfl (by decide)

/-- C6: with `throwErrors` unset, every configured slot is evaluated
regardless of earlier failures: the errors reported outward are exactly the
full failed-slot list (so every encountered failure is in it and none is
dropped or masked), each configured failing slot contributes its item, and
nothing is thrown. -/
theorem C6_no_short_circuit (schemas : RequestValidation α ε)
    (options : Options ε κ) (req : Request α)
    (hthrow : options.throwErrors = false) :
    ((processRequest schemas options req).reportedErrors
        = failedSlots schemas req ∧
     (validateRequest schemas options req).reportedErrors
        = failedSlots schemas req) ∧
    ((∀ s e, schemas.params = some s → s.safeParse req.params = .failure e →
        ErrorListItem.mk .Params e ∈ failedSlots schemas req) ∧
     (∀ s e, schemas.query = some s → s.safeParse req.query = .failure e →
        ErrorListItem.mk .Query e ∈ failedSlots schemas req) ∧
     (∀ s e, schemas.body = some s → s.safeParse req.body = .failure e →
        ErrorListItem.mk .Body e ∈ failedSlots schemas req)) ∧
    ((∀ r te, processRequest schemas options req ≠ .thrown r te) ∧
     (∀ r te, validateRequest schemas options req ≠ .thrown r te)) := by
  refine ⟨⟨?_, ?_⟩, ⟨?_, ?_, ?_⟩, ?_, ?_⟩
  · rw [processRequest_noThrow schemas options req hthrow,
      finishProcess_reportedErrors]
  · rw [validateRequest_noThrow schemas options req hthrow,
      finishValidate_reportedErrors]
  · intro s e hs he
    simp [failedSlots, failedSlotsWith, slotFailureListWith, hs, he]
  · intro s e hs he
    simp [failedSlots, failedSlotsWith, slotFailureListWith, hs, he]
  · intro s e hs he
    simp [failedSlots, failedSlotsWith, slotFailureListWith, hs, he]
  · intro r te
    rw [processRequest_noThrow schemas options req hthrow]
    exact finishProcess_ne_thrown _ _ _ _ _
  · intro r te
    rw [validateRequest_noThrow schemas options req hthrow]
    exact finishValidate_ne_thrown _ _ _ _ _

/-- Witness for C6: params fails, query passes, body fails, all reported. -/
theorem C6_witness :
    (processRequest ⟨some demoFailSchema, some demoOkSchema, some demoFailSchema⟩
        demoOptions demoReq).reportedErrors
      = failedSlots ⟨some demoFailSchema, some demoOkSchema, some demoFailSchema⟩
          demoReq ∧
    ErrorListItem.mk .Params 7
      ∈ failedSlots ⟨some demoFailSchema, some demoOkSchema, some demoFailSchema⟩
          demoReq :=
  ⟨(C6_no_short_circuit _ demoOptions demoReq rfl).1.1,
   (C6_no_short_circuit _ demoOptions demoReq rfl).2.1.1 demoFailSchema 7 rfl rfl⟩

/-- C10: with `throwErrors` unset, processRequest and processRequestAsync
leave the request field of every unconfigured or failed slot at its original
raw value: only successful parses overwrite. -/
theorem C10_failed_slots_keep_raw_value (schemas : RequestValidation α ε)
    (options : Options ε κ) (req : Request α)
    (hthrow : options.throwErrors = false) :
    ((schemas.params = none →
        (processRequest schemas options req).finalReq.params = req.params) ∧
     (∀ s e, schemas.params = some s → s.safeParse req.params = .failure e →
        (processRequest schemas options req).finalReq.params = req.params) ∧
     (schemas.query = none →
        (processRequest schemas options req).finalReq.query = req.query) ∧
     (∀ s e, schemas.query = some s → s.safeParse req.query = .failure e →
        (processRequest schemas options req).finalReq.query = req.query) ∧
     (schemas.body = none →
        (processRequest schemas options req).finalReq.body = req.body) ∧
     (∀ s e, schemas.body = some s → s.safeParse req.body = .failure e →
        (processRequest schemas options req).finalReq.body = req.body)) ∧
    ((schemas.params = none →
        (processRequestAsync schemas options req).finalReq.params = req.params) ∧
     (∀ s e, schemas.params = some s →
        s.safeParseAsync req.params = .failure e →
        (processRequestAsync schemas options req).finalReq.params = req.params) ∧
     (schemas.query = none →
        (processRequestAsync schemas options req).finalReq.query = req.query) ∧
     (∀ s e, schemas.query = some s →
        s.safeParseAsync req.query = .failure e →
        (processRequestAsync schemas options req).finalReq.query = req.query) ∧
     (schemas.body = none →
        (processRequestAsync schemas options req).finalReq.body = req.body) ∧
     (∀ s e, schemas.body = some s →
        s.safeParseAsync req.body = .failure e →
        (processRequestAsync schemas options req).finalReq.body = req.body)) := by
  have h1 := processRequest_noThrow schemas options req hthrow
  have h2 := processRequestAsync_noThrow schemas options req hthrow
  refine ⟨⟨?_, ?_, ?_, ?_, ?_, ?_⟩, ?_, ?_, ?_, ?_, ?_, ?_⟩ <;> intros <;>
    simp_all [finishProcess_finalReq, processedRequest, processedRequestWith,
      processedFieldWith]

/-- Witness for C10: body fails, params unconfigured, raw values kept. -/
theorem C10_witness :
    (processRequest ⟨none, some demoOkSchema, some demoFailSchema⟩ demoOptions
        demoReq).finalReq.params = demoReq.params ∧
    (processRequestAsync ⟨none, some demoOkSchema, some demoFailSchema⟩
        demoOptions demoReq).finalReq.body = demoReq.body :=
  ⟨(C10_failed_slots_keep_raw_value _ demoOptions demoReq rfl).1.1 rfl,
   (C10_failed_slots_keep_raw_value _ demoOptions demoReq rfl).2.2.2.2.2.2
     demoFailSchema 7 rfl rfl⟩

/-- C3: with `throwErrors` set, a configured failing params slot raises
InvalidParamsError carrying the native error, and the query and body schemas
are not evaluated (the outcome is unchanged under any replacement of them);
otherwise a configured failing query slot raises InvalidQueryError and the
body schema is not evaluated; otherwise a configured failing body slot
raises InvalidBodyError; and when no configured slot fails the continuation
is invoked with no argument.  Covers both sync combined entry points. -/
theorem C3_throw_errors_chain (schemas : RequestValidation α ε)
    (options : Options ε κ) (req : Request α)
    (hthrow : options.throwErrors = true) :
    (∀ s e, schemas.params = some s → s.safeParse req.params = .failure e →
        processRequest schemas options req
            = .thrown req (.InvalidParamsError e) ∧
        validateRequest schemas options req
            = .thrown req (.InvalidParamsError e) ∧
        (∀ schemas2 : RequestValidation α ε, schemas2.params = schemas.params →
          processRequest schemas2 options req
              = processRequest schemas options req ∧
          validateRequest schemas2 options req
              = validateRequest schemas options req)) ∧
    (slotFailureList .Params schemas.params req.params = [] →
      ∀ s e, schemas.query = some s → s.safeParse req.query = .failure e →
        processRequest schemas options req
            = .thrown { req with params := processedField schemas.params req.params }
                (.InvalidQueryError e) ∧
        validateRequest schemas options req
            = .thrown req (.InvalidQueryError e) ∧
        (∀ schemas2 : RequestValidation α ε, schemas2.params = schemas.params →
          schemas2.query = schemas.query →
          processRequest schemas2 options req
              = processRequest schemas options req ∧
          validateRequest schemas2 options req
              = validateRequest schemas options req)) ∧
    (slotFailureList .Params schemas.params req.params = [] →
     slotFailureList .Query schemas.query req.query = [] →
      ∀ s e, schemas.body = some s → s.safeParse req.body = .failure e →
        processRequest schemas options req
            = .thrown { req with params := processedField schemas.params req.params,
                                 query := processedField schemas.query req.query }
                (.InvalidBodyError e) ∧
        validateRequest schemas options req
            = .thrown req (.InvalidBodyError e)) ∧
    (failedSlots schemas req = [] →
        processRequest schemas options req = .next (processedRequest schemas req) ∧
        validateRequest schemas options req = .next req) := by
  have prK : ∀ (S : RequestValidation α ε) s e, S.params = some s →
      s.safeParse req.params = .failure e →
      processRequest S options req = .thrown req (.InvalidParamsError e) := by
    intro S s e hs he
    unfold processRequest processSlot
    rw [hs]
    simp [he, hthrow, raisedError]
  have vrK : ∀ (S : RequestValidation α ε) s e, S.params = some s →
      s.safeParse req.params = .failure e →
      validateRequest S options req = .thrown req (.InvalidParamsError e) := by
    intro S s e hs he
    unfold validateRequest validateSlot
    rw [hs]
    simp [he, hthrow, raisedError]
  have prQ : ∀ (S : RequestValidation α ε) s e,
      slotFailureList .Params S.params req.params = [] →
      S.query = some s → s.safeParse req.query = .failure e →
      processRequest S options req
        = .thrown { req with params := processedField S.params req.params }
            (.InvalidQueryError e) := by
    intro S s e hP hs he
    unfold processRequest processSlot
    simp only [slotFailureList, slotFailureListWith] at hP
    split at hP <;> (try split at hP) <;>
      simp_all [hthrow, raisedError, processedField, processedFieldWith]
  have vrQ : ∀ (S : RequestValidation α ε) s e,
      slotFailureList .Params S.params req.params = [] →
      S.query = some s → s.safeParse req.query = .failure e →
      validateRequest S options req = .thrown req (.InvalidQueryError e) := by
    intro S s e hP hs he
    unfold validateRequest validateSlot
    simp only [slotFailureList, slotFailureListWith] at hP
    split at hP <;> (try split at hP) <;>
      simp_all [hthrow, raisedError]
  have prB : ∀ (S : RequestValidation α ε) s e,
      slotFailureList .Params S.params req.params = [] →
      slotFailureList .Query S.query req.query = [] →
      S.body = some s → s.safeParse req.body = .failure e →
      processRequest S options req
        = .thrown { req with params := processedField S.params req.params,
                             query := processedField S.query req.query }
            (.InvalidBodyError e) := by
    intro S s e hP hQ hs he
    unfold processRequest processSlot
    simp only [slotFailureList, slotFailureListWith] at hP hQ
    split at hP <;> split at hQ <;>
      (try split at hP) <;> (try split at hQ) <;>
      simp_all [hthrow, raisedError, processedField, processedFieldWith]
  have vrB : ∀ (S : RequestValidation α ε) s e,
      slotFailureList .Params S.params req.params = [] →
      slotFailureList .Query S.query req.query = [] →
      S.body = some s → s.safeParse req.body = .failure e →
      validateRequest S options req = .thrown req (.InvalidBodyError e) := by
    intro S s e hP hQ hs he
    unfold validateRequest validateSlot
    simp only [slotFailureList, slotFailureListWith] at hP hQ
    split at hP <;> split at hQ <;>
      (try split at hP) <;> (try split at hQ) <;>
      simp_all [hthrow, raisedError]
  refine ⟨?_, ?_, ?_, ?_⟩
  · intro s e hs he
    refine ⟨prK schemas s e hs he, vrK schemas s e hs he, ?_⟩
    intro S2 h2
    exact ⟨(prK S2 s e (h2.trans hs) he).trans (prK schemas s e hs he).symm,
           (vrK S2 s e (h2.trans hs) he).trans (vrK schemas s e hs he).symm⟩
  · intro hP s e hs he
    refine ⟨prQ schemas s e hP hs he, vrQ schemas s e hP hs he, ?_⟩
    intro S2 h2p h2q
    have hP2 : slotFailureList .Params S2.params req.params = [] := by
      rw [h2p]; exact hP
    constructor
    · rw [prQ S2 s e hP2 (h2q.trans hs) he, prQ schemas s e hP hs he, h2p]
    · rw [vrQ S2 s e hP2 (h2q.trans hs) he, vrQ schemas s e hP hs he]
  · intro hP hQ s e hs he
    exact ⟨prB schemas s e hP hQ hs he, vrB schemas s e hP hQ hs he⟩
  · intro hok
    exact ⟨processRequest_allPass schemas options req hok,
           validateRequest_allPass schemas options req hok⟩

/-- Witness for C3: params fails under `throwErrors`, so both sync entry
points raise InvalidParamsError with the native error. -/
theorem C3_witness :
    processRequest ⟨some demoFailSchema, none, none⟩ demoThrowOptions demoReq
        = .thrown demoReq (.InvalidParamsError 7) ∧
    validateRequest ⟨some demoFailSchema, none, none⟩ demoThrowOptions demoReq
        = .thrown demoReq (.InvalidParamsError 7) :=
  ⟨((C3_throw_errors_chain _ demoThrowOptions demoReq rfl).1
      demoFailSchema 7 rfl rfl).1,
   ((C3_throw_errors_chain _ demoThrowOptions demoReq rfl).1
      demoFailSchema 7 rfl rfl).2.1⟩

/-- C1: at a request whose body slot fails, with both flags false and a
custom sendErrors callback (id 99) configured, processRequest and
processRequestAsync invoke the built-in 400 responder and do NOT invoke the
configured callback — the source's `if (options.sendErrors)` branch calls
the module-level `sendErrors` instead of `options.sendErrors` — whereas
validateRequest and validateRequestAsync invoke the configured callback with
the accumulated error list.  This refutes the claim for the two processing
entry points. -/
theorem C1_custom_callback_bypassed :
    processRequest ⟨none, none, some demoFailSchema⟩ demoCustomOptions demoReq
        = .respond demoReq ⟨400, [⟨.Body, 7⟩]⟩ ∧
    processRequest ⟨none, none, some demoFailSchema⟩ demoCustomOptions demoReq
        ≠ .customSend demoReq 99 [⟨.Body, 7⟩] ∧
    processRequestAsync ⟨none, none, some demoFailSchema⟩ demoCustomOptions
        demoReq
        = .respond demoReq ⟨400, [⟨.Body, 7⟩]⟩ ∧
    validateRequest ⟨none, none, some demoFailSchema⟩ demoCustomOptions demoReq
        = .customSend demoReq 99 [⟨.Body, 7⟩] ∧
    validateRequestAsync ⟨none, none, some demoFailSchema⟩ demoCustomOptions
        demoReq
        = .customSend demoReq 99 [⟨.Body, 7⟩] := by
  refine ⟨?_, ?_, ?_, ?_, ?_⟩ <;> decide

end ZodExpress
